import Mathlib

/-!
# RemBG — luminance matte engine, despill corrector and pipeline: a verification development

This file embeds the background-removal core of the RemBG repository
(`app.py` and `rembg_app.py`) and proves/refutes the specification's claims
about it.

Embedding conventions:
* The numpy pipeline computes on `float32` arrays.  The embedding uses exact
  rational arithmetic (`ℚ`): the inputs (uint8 channels, integer parameters)
  are exactly representable and the claims are stated over the algorithm's
  real-number semantics.
* `np.ndarray.astype(np.uint8)` truncates toward zero.  Every value stored to
  the output image is first clipped into `[0, 255]`, where truncation towards
  zero coincides with `Int.floor`; `toByte` below is therefore the floor.
* Pixels carry integer channels; a decoded RGBA image has all channels in
  `[0, 255]`.
-/

namespace RemBG

/-- One RGBA pixel.  Channels are integers; a pixel coming from a decoded
image has all four channels in `[0, 255]`. -/
structure Pixel where
  r : ℤ
  g : ℤ
  b : ℤ
  a : ℤ
deriving DecidableEq

/-- `np.clip x lo hi`. -/
def clip (x lo hi : ℚ) : ℚ := min (max x lo) hi

/-- BT.709 perceived luminance, `0.2126*r + 0.7152*g + 0.0722*b`
(`app.py` line 57, `rembg_app.py` line 64). -/
def luminance (r g b : ℚ) : ℚ :=
  2126 / 10000 * r + 7152 / 10000 * g + 722 / 10000 * b

/-- Luminance of a pixel's integer channels. -/
def lumOf (p : Pixel) : ℚ := luminance p.r p.g p.b

/-- `soft = max(softness, 1)` — the division-safety floor applied inside both
ramp functions (`app.py` lines 58 and 79). -/
def softClamp (softness : ℤ) : ℤ := max softness 1

/-- Dark-mode alpha ramp:
`alpha = np.clip((lum - threshold) / soft * 255.0, 0.0, 255.0)`
(`app.py` line 59). -/
def alphaDark (lum : ℚ) (threshold softness : ℤ) : ℚ :=
  clip ((lum - threshold) / (softClamp softness : ℚ) * 255) 0 255

/-- Light-mode alpha ramp:
`alpha = np.clip((threshold - lum) / soft * 255.0 + 255.0, 0.0, 255.0)`
(`app.py` line 80). -/
def alphaLight (lum : ℚ) (threshold softness : ℤ) : ℚ :=
  clip (((threshold : ℚ) - lum) / (softClamp softness : ℚ) * 255 + 255) 0 255

/-- Dark-mode despill of one channel: `np.clip(mx + (ch - mx) * 1.3, 0, 255)`
(`app.py` line 68). -/
def despillDarkCh (mx ch : ℚ) : ℚ := clip (mx + (ch - mx) * (13 / 10)) 0 255

/-- Light-mode despill of one channel: `np.clip(mn + (ch - mn) * 1.3, 0, 255)`
(`app.py` line 89). -/
def despillLightCh (mn ch : ℚ) : ℚ := clip (mn + (ch - mn) * (13 / 10)) 0 255

/-- The final `astype(np.uint8)` applied to a value already clipped into
`[0, 255]`: truncation toward zero, i.e. the floor on nonnegative values. -/
def toByte (x : ℚ) : ℤ := ⌊x⌋

/-- Per-pixel action of `remove_dark_bg` (`app.py` lines 53-71).  The despill
mask `(alpha > 0) & (alpha < 200)` tests the float alpha computed by the ramp;
`mx = np.maximum(r, np.maximum(g, b))` is materialised from the original
channels before any channel is overwritten, so every channel is despilled
against the original maximum. -/
def removeDarkPixel (p : Pixel) (threshold softness : ℤ) (despill : Bool) : Pixel :=
  if despill ∧ 0 < alphaDark (lumOf p) threshold softness ∧
      alphaDark (lumOf p) threshold softness < 200 then
    ⟨toByte (despillDarkCh (max (p.r : ℚ) (max (p.g : ℚ) (p.b : ℚ))) p.r),
      toByte (despillDarkCh (max (p.r : ℚ) (max (p.g : ℚ) (p.b : ℚ))) p.g),
      toByte (despillDarkCh (max (p.r : ℚ) (max (p.g : ℚ) (p.b : ℚ))) p.b),
      toByte (alphaDark (lumOf p) threshold softness)⟩
  else
    ⟨p.r, p.g, p.b, toByte (alphaDark (lumOf p) threshold softness)⟩

/-- Per-pixel action of `remove_light_bg` (`app.py` lines 74-92), with
`mn = np.minimum(r, np.minimum(g, b))`. -/
def removeLightPixel (p : Pixel) (threshold softness : ℤ) (despill : Bool) : Pixel :=
  if despill ∧ 0 < alphaLight (lumOf p) threshold softness ∧
      alphaLight (lumOf p) threshold softness < 200 then
    ⟨toByte (despillLightCh (min (p.r : ℚ) (min (p.g : ℚ) (p.b : ℚ))) p.r),
      toByte (despillLightCh (min (p.r : ℚ) (min (p.g : ℚ) (p.b : ℚ))) p.g),
      toByte (despillLightCh (min (p.r : ℚ) (min (p.g : ℚ) (p.b : ℚ))) p.b),
      toByte (alphaLight (lumOf p) threshold softness)⟩
  else
    ⟨p.r, p.g, p.b, toByte (alphaLight (lumOf p) threshold softness)⟩

/-- A decoded RGBA image: a width × height grid of pixels.  `pix x y` is the
pixel at column `x`, row `y`. -/
structure Buffer where
  width : ℕ
  height : ℕ
  pix : ℕ → ℕ → Pixel

/-- Apply a per-pixel function to a whole image (the numpy array operations in
`remove_dark_bg` / `remove_light_bg` act pixelwise and keep the shape). -/
def mapPixels (f : Pixel → Pixel) (b : Buffer) : Buffer :=
  ⟨b.width, b.height, fun x y => f (b.pix x y)⟩

/-- `remove_dark_bg` on a whole image (`app.py` lines 53-71). -/
def removeDarkBg (b : Buffer) (threshold softness : ℤ) (despill : Bool) : Buffer :=
  mapPixels (fun p => removeDarkPixel p threshold softness despill) b

/-- `remove_light_bg` on a whole image (`app.py` lines 74-92). -/
def removeLightBg (b : Buffer) (threshold softness : ℤ) (despill : Bool) : Buffer :=
  mapPixels (fun p => removeLightPixel p threshold softness despill) b

/-- `PIL.Image.resize((w, h), Image.LANCZOS)`.  The external resampler's
contract used by the pipeline is that the result has exactly the requested
dimensions; the pixel content is modelled by coordinate rescaling (the actual
Lanczos kernel lives in the external imaging library and no claim depends on
the resampled colours). -/
def resize (b : Buffer) (w h : ℕ) : Buffer :=
  ⟨w, h, fun x y => b.pix (x * b.width / w) (y * b.height / h)⟩

/-- `remove_ai_bg` (`app.py` lines 95-110): the external model's output
(`modelOut`, an arbitrary image produced by `rembg.remove`) is normalised to
RGBA — our pixels are always RGBA, so the `convert` is the identity here — and
resized back to the input's size when the model altered the resolution. -/
def removeAiBg (img : Buffer) (modelOut : Buffer) : Buffer :=
  if (modelOut.width, modelOut.height) ≠ (img.width, img.height) then
    resize modelOut img.width img.height
  else
    modelOut

/-- `threshold = max(0, min(threshold, 255))` (`app.py` line 148). -/
def clampThreshold (t : ℤ) : ℤ := max 0 (min t 255)

/-- `softness = max(1, min(softness, 200))` (`app.py` line 149). -/
def clampSoftness (s : ℤ) : ℤ := max 1 (min s 200)

/-- Failure reported by the web pipeline's mode dispatch. -/
inductive ProcError
  | invalidMode
deriving DecidableEq

/-- The "ensure original resolution" step shared by both entry points
(`app.py` lines 188-189, `rembg_app.py` lines 654-656): if the computed
result's size differs from the input's, resize it back. -/
def ensureSize (img r : Buffer) : Buffer :=
  if (r.width, r.height) ≠ (img.width, img.height) then resize r img.width img.height
  else r

/-- The matte-computation part of the `/process` route (`app.py` lines
147-189): clamp the parameters, dispatch on the `mode` string — an
unrecognised mode is answered with the invalid-argument error `400 "Geçersiz
mod"` before any matte computation — and finally restore the original
resolution if anything changed it.  `modelOut` stands for the external AI
model's output image. -/
def processMatte (mode : String) (img : Buffer) (threshold softness : ℤ)
    (despill : Bool) (modelOut : Buffer) : Except ProcError Buffer :=
  match
    (if mode = "dark" then
      .ok (removeDarkBg img (clampThreshold threshold) (clampSoftness softness) despill)
    else if mode = "light" then
      .ok (removeLightBg img (clampThreshold threshold) (clampSoftness softness) despill)
    else if mode = "ai" then .ok (removeAiBg img modelOut)
    else .error .invalidMode : Except ProcError Buffer) with
  | .error e => .error e
  | .ok result => .ok (ensureSize img result)

/-- Per-file dispatch of the desktop batch worker (`rembg_app.py` lines
644-656).  The worker has no invalid-mode branch: `if mode == "dark" … elif
mode == "light" … else: remove_ai_bg(…)`, so any other mode value is routed
to the AI-segmentation branch; afterwards the original resolution is
restored.  The worker passes `threshold`/`softness` through unclamped (the
desktop sliders bound them). -/
def workerDispatch (mode : String) (img : Buffer) (threshold softness : ℤ)
    (despill : Bool) (modelOut : Buffer) : Buffer :=
  ensureSize img
    (if mode = "dark" then removeDarkBg img threshold softness despill
     else if mode = "light" then removeLightBg img threshold softness despill
     else removeAiBg img modelOut)

/-!
## Session-cache model

`get_session` (`app.py` lines 41-48) is, for one model identifier:

```
if model_name not in _session_cache:          # membership check
    _session_cache[model_name] = new_session(model_name)   # construct + store
```

The membership check and the construct-and-store are separate atomic actions
(individual dict operations are atomic under the GIL, but `new_session`
performs long I/O and releases the GIL between them, and Flask serves
requests on multiple threads).  We model two threads racing on the same key:
each thread first performs its check (recording whether it saw the key
absent), then — only if its check saw the key absent — constructs a session
and stores it.  `constructions` counts calls to `new_session`. -/

/-- Shared cache state for a single model identifier, plus each thread's local
result of its membership check and the construction call counter. -/
structure CacheState where
  cached : Bool
  constructions : ℕ
  saw0Absent : Bool
  saw1Absent : Bool
deriving DecidableEq

/-- The atomic actions of the two threads running `get_session` on the same
key: thread `i` executes `checkI` then `storeI`. -/
inductive SessionStep
  | check0
  | store0
  | check1
  | store1
deriving DecidableEq

/-- Effect of one atomic action on the shared state. -/
def sessionStep (st : CacheState) : SessionStep → CacheState
  | .check0 => { st with saw0Absent := !st.cached }
  | .store0 =>
      if st.saw0Absent then
        { st with cached := true, constructions := st.constructions + 1 }
      else st
  | .check1 => { st with saw1Absent := !st.cached }
  | .store1 =>
      if st.saw1Absent then
        { st with cached := true, constructions := st.constructions + 1 }
      else st

/-- Run a schedule of atomic actions from the empty cache. -/
def runSchedule (steps : List SessionStep) : CacheState :=
  steps.foldl sessionStep ⟨false, 0, false, false⟩

/-- `zs` is an interleaving of the two action sequences `xs` and `ys`
(program order of each thread is preserved). -/
inductive Interleave : List SessionStep → List SessionStep → List SessionStep → Prop
  | nil : Interleave [] [] []
  | left {x xs ys zs} : Interleave xs ys zs → Interleave (x :: xs) ys (x :: zs)
  | right {y xs ys zs} : Interleave xs ys zs → Interleave xs (y :: ys) (y :: zs)

/-- Program of the first thread resolving the key. -/
def thread0 : List SessionStep := [.check0, .store0]

/-- Program of the second thread resolving the same key. -/
def thread1 : List SessionStep := [.check1, .store1]

/-!
## Shared helper lemmas
-/

theorem clip_eq_lo {x lo hi : ℚ} (hx : x ≤ lo) (h : lo ≤ hi) : clip x lo hi = lo := by
  unfold clip
  rw [max_eq_right hx, min_eq_left h]

theorem clip_eq_hi {x lo hi : ℚ} (hlo : lo ≤ x) (hx : hi ≤ x) : clip x lo hi = hi := by
  unfold clip
  rw [max_eq_left hlo, min_eq_right hx]

theorem clip_eq_self {x lo hi : ℚ} (h1 : lo ≤ x) (h2 : x ≤ hi) : clip x lo hi = x := by
  unfold clip
  rw [max_eq_left h1, min_eq_left h2]

theorem clip_mono {x y lo hi : ℚ} (h : x ≤ y) : clip x lo hi ≤ clip y lo hi :=
  min_le_min (max_le_max h le_rfl) le_rfl

theorem softClamp_pos (s : ℤ) : 0 < softClamp s :=
  lt_max_iff.mpr (Or.inr one_pos)

theorem softClamp_cast_pos (s : ℤ) : (0 : ℚ) < (softClamp s : ℚ) := by
  exact_mod_cast softClamp_pos s

theorem softClamp_eq_of_one_le {s : ℤ} (h : 1 ≤ s) : softClamp s = s :=
  max_eq_left h

theorem alphaDark_eq_zero {L : ℚ} {t : ℤ} (s : ℤ) (h : L ≤ t) : alphaDark L t s = 0 := by
  have hc : (0 : ℚ) < (softClamp s : ℚ) := softClamp_cast_pos s
  have h1 : (L - t) / (softClamp s : ℚ) ≤ 0 :=
    div_nonpos_of_nonpos_of_nonneg (by linarith) hc.le
  have h2 : (L - t) / (softClamp s : ℚ) * 255 ≤ 0 := by nlinarith
  exact clip_eq_lo h2 (by norm_num)

theorem alphaDark_eq_top {L : ℚ} {t s : ℤ} (h : (t : ℚ) + (softClamp s : ℚ) ≤ L) :
    alphaDark L t s = 255 := by
  have hc : (0 : ℚ) < (softClamp s : ℚ) := softClamp_cast_pos s
  have h1 : (1 : ℚ) ≤ (L - t) / (softClamp s : ℚ) :=
    (one_le_div hc).mpr (by linarith)
  have h2 : (255 : ℚ) ≤ (L - t) / (softClamp s : ℚ) * 255 := by nlinarith
  exact clip_eq_hi (by linarith) h2

theorem alphaDark_mono {L1 L2 : ℚ} {t s : ℤ} (h : L1 ≤ L2) :
    alphaDark L1 t s ≤ alphaDark L2 t s := by
  have hc : (0 : ℚ) < (softClamp s : ℚ) := softClamp_cast_pos s
  apply clip_mono
  gcongr

theorem alphaLight_eq_zero {L : ℚ} {t s : ℤ} (h : (t : ℚ) + (softClamp s : ℚ) ≤ L) :
    alphaLight L t s = 0 := by
  have hc : (0 : ℚ) < (softClamp s : ℚ) := softClamp_cast_pos s
  have h1 : ((t : ℚ) - L) / (softClamp s : ℚ) ≤ -1 := by
    rw [div_le_iff₀ hc]
    linarith
  have h2 : ((t : ℚ) - L) / (softClamp s : ℚ) * 255 + 255 ≤ 0 := by nlinarith
  exact clip_eq_lo h2 (by norm_num)

theorem alphaLight_eq_top {L : ℚ} {t : ℤ} (s : ℤ) (h : L ≤ t) : alphaLight L t s = 255 := by
  have hc : (0 : ℚ) < (softClamp s : ℚ) := softClamp_cast_pos s
  have h1 : (0 : ℚ) ≤ ((t : ℚ) - L) / (softClamp s : ℚ) :=
    div_nonneg (by linarith) hc.le
  have h2 : (255 : ℚ) ≤ ((t : ℚ) - L) / (softClamp s : ℚ) * 255 + 255 := by nlinarith
  exact clip_eq_hi (by linarith) h2

theorem despillDarkCh_le {mx ch : ℚ} (h0 : 0 ≤ ch) (hch : ch ≤ mx) :
    despillDarkCh mx ch ≤ ch := by
  unfold despillDarkCh clip
  have hv : mx + (ch - mx) * (13 / 10) ≤ ch := by linarith
  exact le_trans (min_le_left _ _) (max_le hv h0)

theorem despillDarkCh_self {mx : ℚ} (h0 : 0 ≤ mx) (h255 : mx ≤ 255) :
    despillDarkCh mx mx = mx := by
  unfold despillDarkCh
  rw [show mx + (mx - mx) * (13 / 10) = mx by ring]
  exact clip_eq_self h0 h255

theorem despillLightCh_ge {mn ch : ℚ} (h255 : ch ≤ 255) (hch : mn ≤ ch) :
    ch ≤ despillLightCh mn ch := by
  unfold despillLightCh clip
  have hv : ch ≤ mn + (ch - mn) * (13 / 10) := by linarith
  exact le_min (le_trans hv (le_max_left _ _)) h255

theorem despillLightCh_self {mn : ℚ} (h0 : 0 ≤ mn) (h255 : mn ≤ 255) :
    despillLightCh mn mn = mn := by
  unfold despillLightCh
  rw [show mn + (mn - mn) * (13 / 10) = mn by ring]
  exact clip_eq_self h0 h255

theorem removeDarkPixel_a (p : Pixel) (t s : ℤ) (d : Bool) :
    (removeDarkPixel p t s d).a = ⌊alphaDark (lumOf p) t s⌋ := by
  unfold removeDarkPixel
  split <;> rfl

theorem removeLightPixel_a (p : Pixel) (t s : ℤ) (d : Bool) :
    (removeLightPixel p t s d).a = ⌊alphaLight (lumOf p) t s⌋ := by
  unfold removeLightPixel
  split <;> rfl

theorem ensureSize_width (img r : Buffer) : (ensureSize img r).width = img.width := by
  unfold ensureSize
  split
  · rfl
  · next h => exact congrArg Prod.fst (not_not.mp h)

theorem ensureSize_height (img r : Buffer) : (ensureSize img r).height = img.height := by
  unfold ensureSize
  split
  · rfl
  · next h => exact congrArg Prod.snd (not_not.mp h)

theorem clampThreshold_idem (t : ℤ) : clampThreshold (clampThreshold t) = clampThreshold t := by
  unfold clampThreshold
  omega

theorem clampSoftness_idem (s : ℤ) : clampSoftness (clampSoftness s) = clampSoftness s := by
  unfold clampSoftness
  omega

/-!
## Claim theorems
-/

/-- **C1** (confirmed): dark-mode alpha ramp.  For every pixel and every
clamped threshold in `[0,255]` and softness in `[1,200]`: luminance at or
below `threshold` gives output alpha `0`; luminance at or above
`threshold + softness` gives output alpha `255`; and the output alpha is
monotonically non-decreasing in the luminance. -/
theorem C1_dark_alpha_ramp (t s : ℤ) (ht0 : 0 ≤ t) (ht1 : t ≤ 255)
    (hs0 : 1 ≤ s) (hs1 : s ≤ 200) (d : Bool) :
    (∀ p : Pixel, lumOf p ≤ (t : ℚ) → (removeDarkPixel p t s d).a = 0) ∧
    (∀ p : Pixel, (t : ℚ) + (s : ℚ) ≤ lumOf p → (removeDarkPixel p t s d).a = 255) ∧
    (∀ p q : Pixel, lumOf p ≤ lumOf q →
      (removeDarkPixel p t s d).a ≤ (removeDarkPixel q t s d).a) := by
  refine ⟨fun p hp => ?_, fun p hp => ?_, fun p q hpq => ?_⟩
  · rw [removeDarkPixel_a, alphaDark_eq_zero s hp]
    exact Int.floor_zero
  · rw [removeDarkPixel_a, alphaDark_eq_top (by rw [softClamp_eq_of_one_le hs0]; exact hp)]
    norm_num
  · rw [removeDarkPixel_a, removeDarkPixel_a]
    exact Int.floor_le_floor (alphaDark_mono hpq)

/-- **C1 witness**: with threshold 35 and softness 25, a black pixel
(luminance 0) comes out fully transparent. -/
theorem C1_dark_alpha_ramp_witness :
    (removeDarkPixel ⟨0, 0, 0, 255⟩ 35 25 true).a = 0 :=
  (C1_dark_alpha_ramp 35 25 (by norm_num) (by norm_num) (by norm_num) (by norm_num)
    true).1 ⟨0, 0, 0, 255⟩ (by norm_num [lumOf, luminance])

/-- **C2 counterexample**: the claim states that light-mode luminance at or
above `threshold` yields alpha `0`.  A gray pixel with luminance exactly
`threshold = 35` (softness 25) instead comes out fully opaque: the code's
ramp `clip((threshold - L)/softness*255 + 255, 0, 255)` equals `255` at
`L = threshold`. -/
theorem C2_counterexample :
    (35 : ℚ) ≤ lumOf ⟨35, 35, 35, 255⟩ ∧
    (removeLightPixel ⟨35, 35, 35, 255⟩ 35 25 false).a = 255 := by
  have hL : lumOf (⟨35, 35, 35, 255⟩ : Pixel) = 35 := by
    norm_num [lumOf, luminance]
  refine ⟨by rw [hL], ?_⟩
  rw [removeLightPixel_a, alphaLight_eq_top 25 (by rw [hL]; norm_num)]
  norm_num

/-- **C2** (amended): the light-mode ramp's transition band sits on
`[threshold, threshold + softness]`, not `[threshold - softness, threshold]`:
luminance at or above `threshold + softness` gives output alpha `0`, and
luminance at or below `threshold` gives output alpha `255`. -/
theorem C2_light_ramp_endpoints (t s : ℤ) (ht0 : 0 ≤ t) (ht1 : t ≤ 255)
    (hs0 : 1 ≤ s) (hs1 : s ≤ 200) (d : Bool) :
    (∀ p : Pixel, (t : ℚ) + (s : ℚ) ≤ lumOf p → (removeLightPixel p t s d).a = 0) ∧
    (∀ p : Pixel, lumOf p ≤ (t : ℚ) → (removeLightPixel p t s d).a = 255) := by
  refine ⟨fun p hp => ?_, fun p hp => ?_⟩
  · rw [removeLightPixel_a,
      alphaLight_eq_zero (by rw [softClamp_eq_of_one_le hs0]; exact hp)]
    exact Int.floor_zero
  · rw [removeLightPixel_a, alphaLight_eq_top s hp]
    norm_num

/-- **C2 witness**: with threshold 35 and softness 25, a white pixel
(luminance 255 ≥ 60) comes out fully transparent in light mode. -/
theorem C2_light_ramp_endpoints_witness :
    (removeLightPixel ⟨255, 255, 255, 255⟩ 35 25 true).a = 0 :=
  (C2_light_ramp_endpoints 35 25 (by norm_num) (by norm_num) (by norm_num) (by norm_num)
    true).1 ⟨255, 255, 255, 255⟩ (by norm_num [lumOf, luminance])

/-- **C3 counterexample**: the claimed mirror `alpha_light(255 - L) =
alpha_dark(L)` fails at threshold 35, softness 25, `L = 100` (all within the
claimed ranges): the dark ramp is already saturated at `255` while the light
ramp at `255 - 100 = 155` is saturated at `0`. -/
theorem C3_counterexample :
    alphaLight ((255 : ℚ) - 100) 35 25 = 0 ∧
    alphaDark (100 : ℚ) 35 25 = 255 ∧
    alphaLight ((255 : ℚ) - 100) 35 25 ≠ alphaDark (100 : ℚ) 35 25 := by
  have h1 : alphaLight ((255 : ℚ) - 100) 35 25 = 0 := by
    apply alphaLight_eq_zero
    norm_num [softClamp]
  have h2 : alphaDark (100 : ℚ) 35 25 = 255 := by
    apply alphaDark_eq_top
    norm_num [softClamp]
  refine ⟨h1, h2, ?_⟩
  rw [h1, h2]
  norm_num

/-- **C3** (amended): the true polarity relation between the two ramps
reflects the luminance about `threshold + softness/2`, not about `255/2`:
for every fixed threshold and softness (softness ≥ 1, as after clamping),
`alpha_light(2·threshold + softness - L) = alpha_dark(L)` for every
luminance `L`.  The claimed `alpha_light(255 - L) = alpha_dark(L)` holds
only when `2·threshold + softness = 255`. -/
theorem C3_polarity_mirror (t s : ℤ) (hs0 : 1 ≤ s) (L : ℚ) :
    alphaLight (2 * (t : ℚ) + (s : ℚ) - L) t s = alphaDark L t s := by
  unfold alphaLight alphaDark
  rw [softClamp_eq_of_one_le hs0]
  have hs' : ((s : ℚ)) ≠ 0 := by
    have : (0 : ℚ) < (s : ℚ) := by exact_mod_cast lt_of_lt_of_le one_pos hs0
    exact this.ne'
  congr 1
  field_simp
  ring

/-- **C3 witness**: the amended mirror at threshold 35, softness 25,
luminance 100. -/
theorem C3_polarity_mirror_witness :
    alphaLight (2 * ((35 : ℤ) : ℚ) + ((25 : ℤ) : ℚ) - 100) 35 25 = alphaDark 100 35 25 :=
  C3_polarity_mirror 35 25 (by norm_num) 100

/-- **C5 counterexample**: the claim states that despill leaves every pixel
with *output* alpha `0` untouched.  The despill mask, however, tests the
pre-quantization float alpha: with threshold 10 and softness 200, the pixel
`(1, 0, 140)` has luminance `10.3206`, float alpha `0.408765` — inside the
mask `(0, 200)` — yet its stored output alpha truncates to `0`, and despill
drags its red channel from `1` down to `0`. -/
theorem C5_counterexample :
    (removeDarkPixel ⟨1, 0, 140, 255⟩ 10 200 true).a = 0 ∧
    (removeDarkPixel ⟨1, 0, 140, 255⟩ 10 200 true).r ≠ 1 := by
  have halpha : alphaDark (lumOf ⟨1, 0, 140, 255⟩) 10 200 = 81753 / 200000 := by
    norm_num [alphaDark, lumOf, luminance, softClamp, clip]
  constructor
  · rw [removeDarkPixel_a, halpha]
    norm_num
  · unfold removeDarkPixel
    rw [if_pos ⟨rfl, by rw [halpha]; norm_num, by rw [halpha]; norm_num⟩]
    norm_num [toByte, despillDarkCh, clip]

/-- **C5** (amended): despill touches a pixel only when `despill = true` and
the pre-quantization float alpha lies strictly between `0` and `200`; in
particular every pixel whose output alpha is at least `200` (which includes
`255`) is passed through unchanged, and so is every pixel whose float alpha
is exactly `0`.  But a pixel whose *output* alpha is `0` may still be
modified, namely when its float alpha lies strictly between `0` and `1`. -/
theorem C5_despill_frame (p : Pixel) (t s : ℤ) (d : Bool) :
    (¬(d = true ∧ 0 < alphaDark (lumOf p) t s ∧ alphaDark (lumOf p) t s < 200) →
      (removeDarkPixel p t s d).r = p.r ∧ (removeDarkPixel p t s d).g = p.g ∧
        (removeDarkPixel p t s d).b = p.b) ∧
    ((200 : ℤ) ≤ (removeDarkPixel p t s d).a →
      (removeDarkPixel p t s d).r = p.r ∧ (removeDarkPixel p t s d).g = p.g ∧
        (removeDarkPixel p t s d).b = p.b) ∧
    (¬(d = true ∧ 0 < alphaLight (lumOf p) t s ∧ alphaLight (lumOf p) t s < 200) →
      (removeLightPixel p t s d).r = p.r ∧ (removeLightPixel p t s d).g = p.g ∧
        (removeLightPixel p t s d).b = p.b) ∧
    ((200 : ℤ) ≤ (removeLightPixel p t s d).a →
      (removeLightPixel p t s d).r = p.r ∧ (removeLightPixel p t s d).g = p.g ∧
        (removeLightPixel p t s d).b = p.b) := by
  refine ⟨fun h => ?_, fun h => ?_, fun h => ?_, fun h => ?_⟩
  · unfold removeDarkPixel
    rw [if_neg h]
    exact ⟨rfl, rfl, rfl⟩
  · have hq : (200 : ℚ) ≤ alphaDark (lumOf p) t s := by
      rw [removeDarkPixel_a] at h
      exact_mod_cast Int.le_floor.mp h
    unfold removeDarkPixel
    rw [if_neg fun hc => absurd hc.2.2 (not_lt.mpr hq)]
    exact ⟨rfl, rfl, rfl⟩
  · unfold removeLightPixel
    rw [if_neg h]
    exact ⟨rfl, rfl, rfl⟩
  · have hq : (200 : ℚ) ≤ alphaLight (lumOf p) t s := by
      rw [removeLightPixel_a] at h
      exact_mod_cast Int.le_floor.mp h
    unfold removeLightPixel
    rw [if_neg fun hc => absurd hc.2.2 (not_lt.mpr hq)]
    exact ⟨rfl, rfl, rfl⟩

/-- **C5 witness**: with despill off, channels pass through unchanged. -/
theorem C5_despill_frame_witness :
    (removeDarkPixel ⟨7, 8, 9, 0⟩ 35 25 false).r = 7 ∧
    (removeDarkPixel ⟨7, 8, 9, 0⟩ 35 25 false).g = 8 ∧
    (removeDarkPixel ⟨7, 8, 9, 0⟩ 35 25 false).b = 9 :=
  (C5_despill_frame ⟨7, 8, 9, 0⟩ 35 25 false).1 (by simp)

/-- **C6** (confirmed): for a fringe-band pixel (float alpha strictly between
`0` and `200`), each despilled channel is
`clamp(mx + (channel - mx) * 1.3, 0, 255)` with `mx = max(R,G,B)` in dark
mode, and `clamp(mn + (channel - mn) * 1.3, 0, 255)` with `mn = min(R,G,B)`
in light mode — the factor `13/10` and the band bounds `0` and `200` are the
code's exact constants (the stored byte is the truncation of that value). -/
theorem C6_despill_formula (p : Pixel) (t s : ℤ) :
    (0 < alphaDark (lumOf p) t s → alphaDark (lumOf p) t s < 200 →
      (removeDarkPixel p t s true).r =
        ⌊min (max (max (p.r : ℚ) (max (p.g : ℚ) (p.b : ℚ)) +
          ((p.r : ℚ) - max (p.r : ℚ) (max (p.g : ℚ) (p.b : ℚ))) * (13 / 10)) 0) 255⌋ ∧
      (removeDarkPixel p t s true).g =
        ⌊min (max (max (p.r : ℚ) (max (p.g : ℚ) (p.b : ℚ)) +
          ((p.g : ℚ) - max (p.r : ℚ) (max (p.g : ℚ) (p.b : ℚ))) * (13 / 10)) 0) 255⌋ ∧
      (removeDarkPixel p t s true).b =
        ⌊min (max (max (p.r : ℚ) (max (p.g : ℚ) (p.b : ℚ)) +
          ((p.b : ℚ) - max (p.r : ℚ) (max (p.g : ℚ) (p.b : ℚ))) * (13 / 10)) 0) 255⌋) ∧
    (0 < alphaLight (lumOf p) t s → alphaLight (lumOf p) t s < 200 →
      (removeLightPixel p t s true).r =
        ⌊min (max (min (p.r : ℚ) (min (p.g : ℚ) (p.b : ℚ)) +
          ((p.r : ℚ) - min (p.r : ℚ) (min (p.g : ℚ) (p.b : ℚ))) * (13 / 10)) 0) 255⌋ ∧
      (removeLightPixel p t s true).g =
        ⌊min (max (min (p.r : ℚ) (min (p.g : ℚ) (p.b : ℚ)) +
          ((p.g : ℚ) - min (p.r : ℚ) (min (p.g : ℚ) (p.b : ℚ))) * (13 / 10)) 0) 255⌋ ∧
      (removeLightPixel p t s true).b =
        ⌊min (max (min (p.r : ℚ) (min (p.g : ℚ) (p.b : ℚ)) +
          ((p.b : ℚ) - min (p.r : ℚ) (min (p.g : ℚ) (p.b : ℚ))) * (13 / 10)) 0) 255⌋) := by
  constructor
  · intro h1 h2
    unfold removeDarkPixel
    rw [if_pos ⟨rfl, h1, h2⟩]
    exact ⟨rfl, rfl, rfl⟩
  · intro h1 h2
    unfold removeLightPixel
    rw [if_pos ⟨rfl, h1, h2⟩]
    exact ⟨rfl, rfl, rfl⟩

/-- **C6 witness**: the pixel `(60, 40, 20)` at threshold 35, softness 25 has
float alpha `79.6416`, inside the fringe band; its despilled green channel is
`⌊60 + (40 - 60) * 1.3⌋ = 34`. -/
theorem C6_despill_formula_witness :
    (removeDarkPixel ⟨60, 40, 20, 255⟩ 35 25 true).g = 34 := by
  have halpha : alphaDark (lumOf ⟨60, 40, 20, 255⟩) 35 25 = 49776 / 625 := by
    norm_num [alphaDark, lumOf, luminance, softClamp, clip]
  have h := ((C6_despill_formula ⟨60, 40, 20, 255⟩ 35 25).1
    (by rw [halpha]; norm_num) (by rw [halpha]; norm_num)).2.1
  rw [h]
  norm_num

/-- **C10** (confirmed): despill direction.  For a fringe-band pixel with
channels in `[0, 255]`, dark-mode despill never increases any channel and
preserves the maximum channel value; light-mode despill never decreases any
channel and preserves the minimum channel value. -/
theorem C10_despill_direction (p : Pixel) (t s : ℤ)
    (hr0 : 0 ≤ p.r) (hr1 : p.r ≤ 255) (hg0 : 0 ≤ p.g) (hg1 : p.g ≤ 255)
    (hb0 : 0 ≤ p.b) (hb1 : p.b ≤ 255) :
    (0 < alphaDark (lumOf p) t s → alphaDark (lumOf p) t s < 200 →
      (removeDarkPixel p t s true).r ≤ p.r ∧
      (removeDarkPixel p t s true).g ≤ p.g ∧
      (removeDarkPixel p t s true).b ≤ p.b ∧
      max (removeDarkPixel p t s true).r
          (max (removeDarkPixel p t s true).g (removeDarkPixel p t s true).b) =
        max p.r (max p.g p.b)) ∧
    (0 < alphaLight (lumOf p) t s → alphaLight (lumOf p) t s < 200 →
      p.r ≤ (removeLightPixel p t s true).r ∧
      p.g ≤ (removeLightPixel p t s true).g ∧
      p.b ≤ (removeLightPixel p t s true).b ∧
      min (removeLightPixel p t s true).r
          (min (removeLightPixel p t s true).g (removeLightPixel p t s true).b) =
        min p.r (min p.g p.b)) := by
  have hr0' : (0 : ℚ) ≤ (p.r : ℚ) := by exact_mod_cast hr0
  have hr1' : ((p.r : ℚ)) ≤ 255 := by exact_mod_cast hr1
  have hg0' : (0 : ℚ) ≤ (p.g : ℚ) := by exact_mod_cast hg0
  have hg1' : ((p.g : ℚ)) ≤ 255 := by exact_mod_cast hg1
  have hb0' : (0 : ℚ) ≤ (p.b : ℚ) := by exact_mod_cast hb0
  have hb1' : ((p.b : ℚ)) ≤ 255 := by exact_mod_cast hb1
  constructor
  · intro h1 h2
    unfold removeDarkPixel
    rw [if_pos ⟨rfl, h1, h2⟩]
    have hle : ∀ c : ℤ, 0 ≤ c → (c : ℚ) ≤ max (p.r : ℚ) (max (p.g : ℚ) (p.b : ℚ)) →
        toByte (despillDarkCh (max (p.r : ℚ) (max (p.g : ℚ) (p.b : ℚ))) c) ≤ c := by
      intro c hc0 hcm
      have h := despillDarkCh_le (show (0 : ℚ) ≤ (c : ℚ) by exact_mod_cast hc0) hcm
      calc toByte (despillDarkCh (max (p.r : ℚ) (max (p.g : ℚ) (p.b : ℚ))) c)
          ≤ ⌊(c : ℚ)⌋ := Int.floor_le_floor h
        _ = c := Int.floor_intCast c
    have hler : toByte (despillDarkCh (max (p.r : ℚ) (max (p.g : ℚ) (p.b : ℚ))) p.r) ≤ p.r :=
      hle p.r hr0 (le_max_left _ _)
    have hleg : toByte (despillDarkCh (max (p.r : ℚ) (max (p.g : ℚ) (p.b : ℚ))) p.g) ≤ p.g :=
      hle p.g hg0 (le_trans (le_max_left _ _) (le_max_right _ _))
    have hleb : toByte (despillDarkCh (max (p.r : ℚ) (max (p.g : ℚ) (p.b : ℚ))) p.b) ≤ p.b :=
      hle p.b hb0 (le_trans (le_max_right _ _) (le_max_right _ _))
    have hfix : ∀ c : ℤ, (c : ℚ) = max (p.r : ℚ) (max (p.g : ℚ) (p.b : ℚ)) →
        toByte (despillDarkCh (max (p.r : ℚ) (max (p.g : ℚ) (p.b : ℚ))) c) = c := by
      intro c hc
      rw [← hc, despillDarkCh_self (hc ▸ hr0'.trans (le_max_left _ _))
        (hc ▸ max_le hr1' (max_le hg1' hb1'))]
      exact Int.floor_intCast c
    refine ⟨hler, hleg, hleb, le_antisymm ?_ ?_⟩
    · exact max_le (le_trans hler (le_max_left _ _))
        (max_le (le_trans hleg (le_trans (le_max_left _ _) (le_max_right _ _)))
          (le_trans hleb (le_trans (le_max_right _ _) (le_max_right _ _))))
    · rcases max_choice (p.r : ℚ) (max (p.g : ℚ) (p.b : ℚ)) with h | h
      · have : toByte (despillDarkCh (max (p.r : ℚ) (max (p.g : ℚ) (p.b : ℚ))) p.r) = p.r :=
          hfix p.r h.symm
        calc max p.r (max p.g p.b) ≤ p.r := by
              have : max (p.r : ℚ) (max (p.g : ℚ) (p.b : ℚ)) = (p.r : ℚ) := h
              have hg'' : (p.g : ℚ) ≤ (p.r : ℚ) :=
                le_trans (le_trans (le_max_left _ _) (le_max_right _ _)) this.le
              have hb'' : (p.b : ℚ) ≤ (p.r : ℚ) :=
                le_trans (le_trans (le_max_right _ _) (le_max_right _ _)) this.le
              exact max_le le_rfl (max_le (by exact_mod_cast hg'') (by exact_mod_cast hb''))
          _ = toByte (despillDarkCh (max (p.r : ℚ) (max (p.g : ℚ) (p.b : ℚ))) p.r) :=
              this.symm
          _ ≤ _ := le_max_left _ _
      · rcases max_choice (p.g : ℚ) (p.b : ℚ) with h' | h'
        · have hgm : (p.g : ℚ) = max (p.r : ℚ) (max (p.g : ℚ) (p.b : ℚ)) := by
            rw [h, h']
          have heq : toByte (despillDarkCh (max (p.r : ℚ) (max (p.g : ℚ) (p.b : ℚ))) p.g) =
              p.g := hfix p.g hgm
          calc max p.r (max p.g p.b) ≤ p.g := by
                have hr'' : (p.r : ℚ) ≤ (p.g : ℚ) := by
                  rw [hgm]; exact le_max_left _ _
                have hb'' : (p.b : ℚ) ≤ (p.g : ℚ) := by
                  rw [hgm, h]; exact le_max_right _ _
                exact max_le (by exact_mod_cast hr'') (max_le le_rfl (by exact_mod_cast hb''))
            _ = toByte (despillDarkCh (max (p.r : ℚ) (max (p.g : ℚ) (p.b : ℚ))) p.g) :=
                heq.symm
            _ ≤ _ := le_trans (le_max_left _ _) (le_max_right _ _)
        · have hbm : (p.b : ℚ) = max (p.r : ℚ) (max (p.g : ℚ) (p.b : ℚ)) := by
            rw [h, h']
          have heq : toByte (despillDarkCh (max (p.r : ℚ) (max (p.g : ℚ) (p.b : ℚ))) p.b) =
              p.b := hfix p.b hbm
          calc max p.r (max p.g p.b) ≤ p.b := by
                have hr'' : (p.r : ℚ) ≤ (p.b : ℚ) := by
                  rw [hbm]; exact le_max_left _ _
                have hg'' : (p.g : ℚ) ≤ (p.b : ℚ) := by
                  rw [hbm, h]; exact le_max_left _ _
                exact max_le (by exact_mod_cast hr'') (max_le (by exact_mod_cast hg'') le_rfl)
            _ = toByte (despillDarkCh (max (p.r : ℚ) (max (p.g : ℚ) (p.b : ℚ))) p.b) :=
                heq.symm
            _ ≤ _ := le_trans (le_max_right _ _) (le_max_right _ _)
  · intro h1 h2
    unfold removeLightPixel
    rw [if_pos ⟨rfl, h1, h2⟩]
    have hge : ∀ c : ℤ, c ≤ 255 → min (p.r : ℚ) (min (p.g : ℚ) (p.b : ℚ)) ≤ (c : ℚ) →
        c ≤ toByte (despillLightCh (min (p.r : ℚ) (min (p.g : ℚ) (p.b : ℚ))) c) := by
      intro c hc255 hcm
      have h := despillLightCh_ge (show ((c : ℚ)) ≤ 255 by exact_mod_cast hc255) hcm
      exact Int.le_floor.mpr h
    have hger : p.r ≤ toByte (despillLightCh (min (p.r : ℚ) (min (p.g : ℚ) (p.b : ℚ))) p.r) :=
      hge p.r hr1 (min_le_left _ _)
    have hgeg : p.g ≤ toByte (despillLightCh (min (p.r : ℚ) (min (p.g : ℚ) (p.b : ℚ))) p.g) :=
      hge p.g hg1 (le_trans (min_le_right _ _) (min_le_left _ _))
    have hgeb : p.b ≤ toByte (despillLightCh (min (p.r : ℚ) (min (p.g : ℚ) (p.b : ℚ))) p.b) :=
      hge p.b hb1 (le_trans (min_le_right _ _) (min_le_right _ _))
    have hfix : ∀ c : ℤ, (c : ℚ) = min (p.r : ℚ) (min (p.g : ℚ) (p.b : ℚ)) →
        toByte (despillLightCh (min (p.r : ℚ) (min (p.g : ℚ) (p.b : ℚ))) c) = c := by
      intro c hc
      rw [← hc, despillLightCh_self (hc ▸ le_min hr0' (le_min hg0' hb0'))
        (hc ▸ (min_le_left _ _).trans hr1')]
      exact Int.floor_intCast c
    refine ⟨hger, hgeg, hgeb, le_antisymm ?_ ?_⟩
    · rcases min_choice (p.r : ℚ) (min (p.g : ℚ) (p.b : ℚ)) with h | h
      · have heq : toByte (despillLightCh (min (p.r : ℚ) (min (p.g : ℚ) (p.b : ℚ))) p.r) =
              p.r := hfix p.r h.symm
        calc min (toByte (despillLightCh (min (p.r : ℚ) (min (p.g : ℚ) (p.b : ℚ))) p.r))
              (min (toByte (despillLightCh (min (p.r : ℚ) (min (p.g : ℚ) (p.b : ℚ))) p.g))
                (toByte (despillLightCh (min (p.r : ℚ) (min (p.g : ℚ) (p.b : ℚ))) p.b)))
            ≤ toByte (despillLightCh (min (p.r : ℚ) (min (p.g : ℚ) (p.b : ℚ))) p.r) :=
              min_le_left _ _
          _ = p.r := heq
          _ ≤ min p.r (min p.g p.b) := by
              have hg'' : (p.r : ℚ) ≤ (p.g : ℚ) := by
                conv_lhs => rw [← h]
                exact le_trans (min_le_right _ _) (min_le_left _ _)
              have hb'' : (p.r : ℚ) ≤ (p.b : ℚ) := by
                conv_lhs => rw [← h]
                exact le_trans (min_le_right _ _) (min_le_right _ _)
              exact le_min le_rfl (le_min (by exact_mod_cast hg'') (by exact_mod_cast hb''))
      · rcases min_choice (p.g : ℚ) (p.b : ℚ) with h' | h'
        · have hgm : (p.g : ℚ) = min (p.r : ℚ) (min (p.g : ℚ) (p.b : ℚ)) := by
            rw [h, h']
          have heq : toByte (despillLightCh (min (p.r : ℚ) (min (p.g : ℚ) (p.b : ℚ))) p.g) =
              p.g := hfix p.g hgm
          calc min (toByte (despillLightCh (min (p.r : ℚ) (min (p.g : ℚ) (p.b : ℚ))) p.r))
                (min (toByte (despillLightCh (min (p.r : ℚ) (min (p.g : ℚ) (p.b : ℚ))) p.g))
                  (toByte (despillLightCh (min (p.r : ℚ) (min (p.g : ℚ) (p.b : ℚ))) p.b)))
              ≤ toByte (despillLightCh (min (p.r : ℚ) (min (p.g : ℚ) (p.b : ℚ))) p.g) :=
                le_trans (min_le_right _ _) (min_le_left _ _)
            _ = p.g := heq
            _ ≤ min p.r (min p.g p.b) := by
                have hr'' : (p.g : ℚ) ≤ (p.r : ℚ) := by
                  rw [hgm]; exact min_le_left _ _
                have hb'' : (p.g : ℚ) ≤ (p.b : ℚ) := by
                  rw [hgm, h]; exact min_le_right _ _
                exact le_min (by exact_mod_cast hr'') (le_min le_rfl (by exact_mod_cast hb''))
        · have hbm : (p.b : ℚ) = min (p.r : ℚ) (min (p.g : ℚ) (p.b : ℚ)) := by
            rw [h, h']
          have heq : toByte (despillLightCh (min (p.r : ℚ) (min (p.g : ℚ) (p.b : ℚ))) p.b) =
              p.b := hfix p.b hbm
          calc min (toByte (despillLightCh (min (p.r : ℚ) (min (p.g : ℚ) (p.b : ℚ))) p.r))
                (min (toByte (despillLightCh (min (p.r : ℚ) (min (p.g : ℚ) (p.b : ℚ))) p.g))
                  (toByte (despillLightCh (min (p.r : ℚ) (min (p.g : ℚ) (p.b : ℚ))) p.b)))
              ≤ toByte (despillLightCh (min (p.r : ℚ) (min (p.g : ℚ) (p.b : ℚ))) p.b) :=
                le_trans (min_le_right _ _) (min_le_right _ _)
            _ = p.b := heq
            _ ≤ min p.r (min p.g p.b) := by
                have hr'' : (p.b : ℚ) ≤ (p.r : ℚ) := by
                  rw [hbm]; exact min_le_left _ _
                have hg'' : (p.b : ℚ) ≤ (p.g : ℚ) := by
                  rw [hbm, h]; exact min_le_left _ _
                exact le_min (by exact_mod_cast hr'') (le_min (by exact_mod_cast hg'') le_rfl)
    · exact le_min (le_trans (min_le_left _ _) hger)
        (le_min (le_trans (le_trans (min_le_right _ _) (min_le_left _ _)) hgeg)
          (le_trans (le_trans (min_le_right _ _) (min_le_right _ _)) hgeb))

/-- **C10 witness**: the pixel `(80, 50, 20)` at threshold 35, softness 25 is
in the dark-mode fringe band (float alpha `195.9624`); despill does not
increase its red channel. -/
theorem C10_despill_direction_witness :
    (removeDarkPixel ⟨80, 50, 20, 255⟩ 35 25 true).r ≤ 80 := by
  have halpha : alphaDark (lumOf ⟨80, 50, 20, 255⟩) 35 25 = 244953 / 1250 := by
    norm_num [alphaDark, lumOf, luminance, softClamp, clip]
  exact ((C10_despill_direction ⟨80, 50, 20, 255⟩ 35 25 (by norm_num) (by norm_num)
    (by norm_num) (by norm_num) (by norm_num) (by norm_num)).1
    (by rw [halpha]; norm_num) (by rw [halpha]; norm_num)).1

/-- A 4×3 input image, fixture for the C4 witness. -/
def c4Img : Buffer := ⟨4, 3, fun _ _ => ⟨0, 0, 0, 255⟩⟩

/-- An 8×8 AI-model output — deliberately a different resolution than
`c4Img` — fixture for the C4 witness. -/
def c4ModelOut : Buffer := ⟨8, 8, fun _ _ => ⟨1, 2, 3, 4⟩⟩

/-- **C4** (confirmed): output-dimension invariant.  Whatever the mode, every
buffer successfully returned by the web pipeline has the input's width and
height, and so does the desktop worker's result — including in AI mode when
the model's native output resolution differs, because the result is resized
back before returning. -/
theorem C4_output_dims (mode : String) (img : Buffer) (t s : ℤ) (d : Bool)
    (mo : Buffer) :
    (∀ r : Buffer, processMatte mode img t s d mo = .ok r →
      r.width = img.width ∧ r.height = img.height) ∧
    ((workerDispatch mode img t s d mo).width = img.width ∧
      (workerDispatch mode img t s d mo).height = img.height) := by
  constructor
  · intro r hr
    unfold processMatte at hr
    by_cases h1 : mode = "dark"
    · rw [if_pos h1] at hr
      injection hr with h
      exact h ▸ ⟨ensureSize_width _ _, ensureSize_height _ _⟩
    · rw [if_neg h1] at hr
      by_cases h2 : mode = "light"
      · rw [if_pos h2] at hr
        injection hr with h
        exact h ▸ ⟨ensureSize_width _ _, ensureSize_height _ _⟩
      · rw [if_neg h2] at hr
        by_cases h3 : mode = "ai"
        · rw [if_pos h3] at hr
          injection hr with h
          exact h ▸ ⟨ensureSize_width _ _, ensureSize_height _ _⟩
        · rw [if_neg h3] at hr
          exact Except.noConfusion hr
  · exact ⟨ensureSize_width _ _, ensureSize_height _ _⟩

/-- **C4 witness**: in AI mode on a 4×3 input whose model output is 8×8, the
returned buffer is 4×3 again. -/
theorem C4_output_dims_witness :
    (ensureSize c4Img (removeAiBg c4Img c4ModelOut)).width = c4Img.width ∧
    (ensureSize c4Img (removeAiBg c4Img c4ModelOut)).height = c4Img.height :=
  (C4_output_dims "ai" c4Img 35 25 false c4ModelOut).1
    (ensureSize c4Img (removeAiBg c4Img c4ModelOut)) rfl

/-- **C7** (confirmed): for every caller-supplied `threshold` and `softness` —
in range or not — the web pipeline clamps `threshold` into `[0, 255]` and
`softness` into `[1, 200]` and never rejects the request because of them (the
three valid modes always succeed, and the computation only ever sees the
clamped values); independently, both ramps floor the softness at `1` before
dividing, so the divisor is strictly positive — never zero. -/
theorem C7_param_clamping (t s : ℤ) (mode : String) (img : Buffer) (d : Bool)
    (mo : Buffer) :
    0 ≤ clampThreshold t ∧ clampThreshold t ≤ 255 ∧
    1 ≤ clampSoftness s ∧ clampSoftness s ≤ 200 ∧
    1 ≤ softClamp s ∧ ((softClamp s : ℤ) : ℚ) ≠ 0 ∧
    (processMatte "dark" img t s d mo).isOk = true ∧
    (processMatte "light" img t s d mo).isOk = true ∧
    (processMatte "ai" img t s d mo).isOk = true ∧
    processMatte mode img t s d mo =
      processMatte mode img (clampThreshold t) (clampSoftness s) d mo := by
  refine ⟨?_, ?_, ?_, ?_, ?_, ?_, ?_, ?_, ?_, ?_⟩
  · exact le_max_left 0 _
  · exact max_le (by norm_num) (min_le_right t 255)
  · exact le_max_left 1 _
  · exact max_le (by norm_num) (min_le_right s 200)
  · exact le_max_right s 1
  · exact (softClamp_cast_pos s).ne'
  · rfl
  · rfl
  · rfl
  · unfold processMatte
    rw [clampThreshold_idem, clampSoftness_idem]

/-- A 2×2 input image, fixture for the C8 counterexample. -/
def c8Img : Buffer := ⟨2, 2, fun _ _ => ⟨10, 20, 30, 255⟩⟩

/-- A same-sized stand-in for the AI model output, fixture for the C8
counterexample. -/
def c8ModelOut : Buffer := ⟨2, 2, fun _ _ => ⟨5, 6, 7, 8⟩⟩

/-- **C8 counterexample**: for the unsupported mode string `"bogus"`, the web
entry point does report the invalid-argument failure — but the desktop
worker's dispatch has no invalid-mode branch: its trailing `else` routes the
request into the AI-segmentation computation and returns its buffer, so the
claim's "in both entry points" is false. -/
theorem C8_counterexample :
    processMatte "bogus" c8Img 35 25 false c8ModelOut = .error .invalidMode ∧
    workerDispatch "bogus" c8Img 35 25 false c8ModelOut = removeAiBg c8Img c8ModelOut := by
  exact ⟨rfl, rfl⟩

/-- **C8** (amended): only the web entry point rejects an unsupported mode:
`process` answers any mode other than `"dark"`, `"light"`, `"ai"` with an
invalid-argument failure before computing a matte, while the desktop worker
`_worker` treats every mode other than `"dark"` and `"light"` as the
AI-segmentation path (no invalid-argument failure is ever produced there). -/
theorem C8_invalid_mode (mode : String) (img : Buffer) (t s : ℤ) (d : Bool)
    (mo : Buffer) (h1 : mode ≠ "dark") (h2 : mode ≠ "light") :
    (mode ≠ "ai" → processMatte mode img t s d mo = .error .invalidMode) ∧
    workerDispatch mode img t s d mo = ensureSize img (removeAiBg img mo) := by
  constructor
  · intro h3
    unfold processMatte
    rw [if_neg h1, if_neg h2, if_neg h3]
  · unfold workerDispatch
    rw [if_neg h1, if_neg h2]

/-- A 3×1 input image, fixture for the C8 witness. -/
def c8wImg : Buffer := ⟨3, 1, fun _ _ => ⟨0, 0, 0, 0⟩⟩

/-- A model-output stand-in, fixture for the C8 witness. -/
def c8wModelOut : Buffer := ⟨3, 1, fun _ _ => ⟨9, 9, 9, 9⟩⟩

/-- **C8 witness**: the amended claim at the concrete unsupported mode
`"xyz"`. -/
theorem C8_invalid_mode_witness :
    processMatte "xyz" c8wImg 35 25 true c8wModelOut = .error .invalidMode :=
  (C8_invalid_mode "xyz" c8wImg 35 25 true c8wModelOut (by decide) (by decide)).1
    (by decide)

/-- Inversion: the interleavings of two two-action threads are exactly the
six merges that keep each thread's program order. -/
theorem interleave_pair_cases {a b c d : SessionStep} {zs : List SessionStep}
    (h : Interleave [a, b] [c, d] zs) :
    zs = [a, b, c, d] ∨ zs = [a, c, b, d] ∨ zs = [a, c, d, b] ∨
    zs = [c, a, b, d] ∨ zs = [c, a, d, b] ∨ zs = [c, d, a, b] := by
  cases h with
  | left h1 =>
    cases h1 with
    | left h2 =>
      cases h2 with
      | right h3 =>
        cases h3 with
        | right h4 =>
          cases h4
          exact Or.inl rfl
    | right h2 =>
      cases h2 with
      | left h3 =>
        cases h3 with
        | right h4 =>
          cases h4
          exact Or.inr (Or.inl rfl)
      | right h3 =>
        cases h3 with
        | left h4 =>
          cases h4
          exact Or.inr (Or.inr (Or.inl rfl))
  | right h1 =>
    cases h1 with
    | left h2 =>
      cases h2 with
      | left h3 =>
        cases h3 with
        | right h4 =>
          cases h4
          exact Or.inr (Or.inr (Or.inr (Or.inl rfl)))
      | right h3 =>
        cases h3 with
        | left h4 =>
          cases h4
          exact Or.inr (Or.inr (Or.inr (Or.inr (Or.inl rfl))))
    | right h2 =>
      cases h2 with
      | left h3 =>
        cases h3 with
        | left h4 =>
          cases h4
          exact Or.inr (Or.inr (Or.inr (Or.inr (Or.inr rfl))))

/-- **C9 counterexample**: the schedule in which both threads pass the
`model_name not in _session_cache` check before either stores is a legal
interleaving of the two resolutions of the same identifier, and it constructs
**two** sessions — `get_session`'s unsynchronised check-then-act does not
guarantee at-most-one-construction-per-key under concurrency. -/
theorem C9_counterexample :
    Interleave thread0 thread1 [.check0, .check1, .store0, .store1] ∧
    (runSchedule [.check0, .check1, .store0, .store1]).constructions = 2 :=
  ⟨.left (.right (.left (.right .nil))), rfl⟩

/-- **C9** (amended): every interleaving of two same-key first-requests
populates the cache and constructs at least one and at most two sessions;
exactly one session is constructed when the two resolutions are sequential
(one thread's check-and-store completes before the other thread's check
runs) — but, per the counterexample, an overlapped interleaving can
construct two. -/
theorem C9_session_cache (zs : List SessionStep)
    (h : Interleave thread0 thread1 zs) :
    (runSchedule zs).cached = true ∧
    1 ≤ (runSchedule zs).constructions ∧
    (runSchedule zs).constructions ≤ 2 ∧
    ((zs = [.check0, .store0, .check1, .store1] ∨
      zs = [.check1, .store1, .check0, .store0]) →
      (runSchedule zs).constructions = 1) := by
  rcases interleave_pair_cases h with rfl | rfl | rfl | rfl | rfl | rfl <;> decide

/-- **C9 witness**: the sequential schedule — thread 0 resolves completely,
then thread 1 — constructs exactly one session. -/
theorem C9_session_cache_witness :
    (runSchedule [.check0, .store0, .check1, .store1]).constructions = 1 :=
  (C9_session_cache [.check0, .store0, .check1, .store1]
    (.left (.left (.right (.right .nil))))).2.2.2 (Or.inl rfl)

end RemBG
